import Mathlib

/-!
Verification of the metaquantome annotation-hierarchy aggregation core and of
the function-taxonomy interaction analysis.

The repository ships the test suite `tests/testAnnotationHierarchy.py` for the
aggregation core; the implementation modules (`AnnotationHierarchy.py`,
`AnnotationNode.py` and the three ontology database classes) are not part of the
source tree here, so the aggregation core below is modelled from the
specification, kept faithful to the behaviour asserted by the shipped tests.
Real-valued intensities are modelled as rationals so that every definition is
executable.  The analysis module `metaquant/analysis/function_taxonomy_interaction.py`
is present in the source tree and is embedded directly.
-/

set_option maxHeartbeats 1000000
set_option maxRecDepth 100000

/-- Modelled from the spec: the per-identifier record of `AnnotationNode.py`
(absent from the source tree).  It accumulates the total intensity, a parallel
peptide/observation counter, and the child-coverage count that is set (not
incremented) by the hierarchy's coverage computation. -/
structure AnnotationNode where
  intensity : ℚ
  npeptide : Nat
  n_sample_children : Nat
deriving DecidableEq

/-- Modelled from the spec: the annotation capability provider contract of
section 4.1 (the database classes `NCBITaxonomyDb.py`, `GeneOntologyDb.py` and
`EnzymeDb.py` are absent from the source tree).  `get_ancestors id` is the
deduplicated ancestor closure excluding `id` itself; `get_children id` lists the
immediate children of `id`. -/
structure AnnotationDb (Id : Type) where
  get_ancestors : Id → List Id
  get_children : Id → List Id

/-- Modelled from the spec: the mutable state of `AnnotationHierarchy.py`
(absent from the source tree): the id-to-node mapping, realised as an
association list in insertion order, together with the expanded sample set
(the caller-supplied sample set, extended with every ancestor reached by
propagation), which the child-coverage computation intersects children with
so that the shipped `testToDataframe` expectations hold. -/
structure AnnotationHierarchy (Id : Type) where
  nodes : List (Id × AnnotationNode)
  expanded_sample_set : List Id

/-- Modelled from the spec: `AnnotationNode.add_intensity` increases the
accumulated intensity by `amount` and bumps the observation counter. -/
def AnnotationNode.add_intensity (n : AnnotationNode) (amount : ℚ) : AnnotationNode :=
  { n with intensity := n.intensity + amount, npeptide := n.npeptide + 1 }

/-- Modelled from the spec: a fresh hierarchy for one sample group: no nodes
yet, and the expanded sample set starts as the caller-supplied sample set. -/
def initHierarchy {Id : Type} (sample_set : List Id) : AnnotationHierarchy Id :=
  { nodes := [], expanded_sample_set := sample_set }

/-- Modelled from the spec: add `amount` to the node for `id` in the mapping,
creating the node (zero intensity, then the addition applied) when absent. -/
def upsert {Id : Type} [DecidableEq Id] (ns : List (Id × AnnotationNode)) (id : Id)
    (amount : ℚ) : List (Id × AnnotationNode) :=
  if ns.any (fun p => decide (p.1 = id)) then
    ns.map (fun p => if p.1 = id then (p.1, p.2.add_intensity amount) else p)
  else
    ns ++ [(id, { intensity := amount, npeptide := 1, n_sample_children := 0 })]

/-- Modelled from the spec: the add-observation operation
`AnnotationHierarchy._add_node(id, intensity)`: add the amount to `id`'s node,
then to the node of every member of the deduplicated ancestor closure of `id`
(each exactly once), and record those ancestors in the expanded sample set. -/
def add_node {Id : Type} [DecidableEq Id] (db : AnnotationDb Id)
    (h : AnnotationHierarchy Id) (id : Id) (amount : ℚ) : AnnotationHierarchy Id :=
  let ancs := db.get_ancestors id
  { nodes := ancs.foldl (fun ns a => upsert ns a amount) (upsert h.nodes id amount),
    expanded_sample_set :=
      h.expanded_sample_set ++ ancs.filter (fun a => decide (a ∉ h.expanded_sample_set)) }

/-- Modelled from the spec: run a finite sequence of add-observation calls. -/
def run_observations {Id : Type} [DecidableEq Id] (db : AnnotationDb Id)
    (obs : List (Id × ℚ)) (h : AnnotationHierarchy Id) : AnnotationHierarchy Id :=
  obs.foldl (fun acc p => add_node db acc p.1 p.2) h

/-- Modelled from the spec: the child-coverage computation
`AnnotationHierarchy._define_sample_children`: for every node in the mapping,
set `n_sample_children` to the number of its immediate children that are
members of the expanded sample set. -/
def define_sample_children {Id : Type} [DecidableEq Id] (db : AnnotationDb Id)
    (h : AnnotationHierarchy Id) : AnnotationHierarchy Id :=
  { h with nodes := h.nodes.map (fun p =>
      (p.1, { p.2 with n_sample_children :=
        (db.get_children p.1).countP (fun c => decide (c ∈ h.expanded_sample_set)) })) }

/-- Modelled from the spec: the informative-node selection: keep a node iff its
peptide/observation count is at least `min_peptides` and it either has zero
sample children or at least `min_children_non_leaf` of them. -/
def get_informative_nodes {Id : Type} (h : AnnotationHierarchy Id)
    (min_peptides min_children_non_leaf : Nat) : List (Id × AnnotationNode) :=
  h.nodes.filter (fun p =>
    decide (min_peptides ≤ p.2.npeptide) &&
      (decide (p.2.n_sample_children = 0) ||
        decide (min_children_non_leaf ≤ p.2.n_sample_children)))

/-- One row of the exported table: the annotation id and the three columns of
the sample group (intensity, peptide count, sample-child count). -/
structure DfRow (Id : Type) where
  id : Id
  intensity : ℚ
  n_peptide : Nat
  n_samp_children : Nat
deriving DecidableEq

/-- Modelled from the spec: `AnnotationHierarchy.to_dataframe`: one row per
node, keyed by annotation id. -/
def to_dataframe {Id : Type} (h : AnnotationHierarchy Id) : List (DfRow Id) :=
  h.nodes.map (fun p => ⟨p.1, p.2.intensity, p.2.npeptide, p.2.n_sample_children⟩)

/-- Look up the node recorded for `id`, if any. -/
def findNode {Id : Type} [DecidableEq Id] (ns : List (Id × AnnotationNode)) (id : Id) :
    Option AnnotationNode :=
  (ns.find? (fun p => decide (p.1 = id))).map Prod.snd

/-- The accumulated intensity recorded for `id` (zero when no node exists). -/
def nodeIntensity {Id : Type} [DecidableEq Id] (ns : List (Id × AnnotationNode)) (id : Id) : ℚ :=
  match findNode ns id with
  | some n => n.intensity
  | none => 0

/-- The child-coverage count recorded for `id` (zero when no node exists). -/
def nodeSampChildren {Id : Type} [DecidableEq Id] (ns : List (Id × AnnotationNode)) (id : Id) : Nat :=
  match findNode ns id with
  | some n => n.n_sample_children
  | none => 0

/-- Modelled from the spec: the explicit lookup-failure wrapper of section 7
around the capability provider (absent from the source tree): `known` says
whether the provider can resolve an identifier. -/
structure CheckedDb (Id : Type) where
  known : Id → Bool
  db : AnnotationDb Id

/-- Modelled from the spec: the ancestor-closure query fails with an explicit
lookup-failure signal on an unresolvable identifier, instead of returning an
empty or partial ancestor set. -/
def CheckedDb.ancestors_checked {Id : Type} (cdb : CheckedDb Id) (id : Id) :
    Except String (List Id) :=
  if cdb.known id then Except.ok (cdb.db.get_ancestors id)
  else Except.error "unresolvable annotation id"

/-- Modelled from the spec: the add-observation operation propagates an
ancestor-lookup failure to the caller instead of guessing an ancestor set. -/
def add_node_checked {Id : Type} [DecidableEq Id] (cdb : CheckedDb Id)
    (h : AnnotationHierarchy Id) (id : Id) (amount : ℚ) :
    Except String (AnnotationHierarchy Id) :=
  match cdb.ancestors_checked id with
  | Except.error e => Except.error e
  | Except.ok _ => Except.ok (add_node cdb.db h id amount)

/-- Modelled from the spec: the fragment of the NCBI taxonomy database
(`NCBITaxonomyDb.py`, absent from the source tree) used by the tests: the
species-genus-family chain homo sapiens (9606) to homo (9605) to hominidae
(9604). -/
def ncbiDb : AnnotationDb Nat :=
  { get_ancestors := fun id =>
      if id = 9606 then [9605, 9604]
      else if id = 9605 then [9604]
      else [],
    get_children := fun id =>
      if id = 9604 then [9605]
      else if id = 9605 then [9606]
      else [] }

/-- The caller-supplied NCBI sample set of the tests. -/
def ncbiSampleSet : List Nat := [9604, 9605, 9606]

/-- Modelled from the spec: the fragment of the Gene Ontology DAG
(`GeneOntologyDb.py`, absent from the source tree) used by the tests.
`GO:0036093` (germ cell proliferation) has the two parents `GO:0008283`
(cell proliferation) and `GO:0022414` (reproductive process); ancestor
closures are deduplicated even where the two parent paths reconverge on
`GO:0008150` (biological process). -/
def goDb : AnnotationDb String :=
  { get_ancestors := fun id =>
      if id = "GO:0008283" then ["GO:0008150"]
      else if id = "GO:0033687" then ["GO:0008283", "GO:0008150"]
      else if id = "GO:0036093" then ["GO:0008283", "GO:0022414", "GO:0008150"]
      else if id = "GO:0022414" then ["GO:0008150"]
      else if id = "GO:1903046" then ["GO:0022414", "GO:0008150"]
      else if id = "GO:0051026" then ["GO:1903046", "GO:0022414", "GO:0008150"]
      else [],
    get_children := fun id =>
      if id = "GO:0008150" then ["GO:0008283", "GO:0022414"]
      else if id = "GO:0008283" then ["GO:0033687", "GO:0036093"]
      else if id = "GO:0022414" then ["GO:0036093", "GO:1903046"]
      else if id = "GO:1903046" then ["GO:0051026"]
      else [] }

/-- The caller-supplied GO sample set of the tests. -/
def goSampleSet : List String :=
  ["GO:0008150", "GO:0008283", "GO:0033687", "GO:0036093",
   "GO:0022414", "GO:1903046", "GO:0051026"]

/-- The observations of the GO aggregation test: leaf additions
0, 0, 0, 100, 50, 200, 300 over the seven-node chain. -/
def goObservations : List (String × ℚ) :=
  [("GO:0008150", 0), ("GO:0008283", 0), ("GO:0033687", 0), ("GO:0036093", 100),
   ("GO:0022414", 50), ("GO:1903046", 200), ("GO:0051026", 300)]

/-- The hierarchy state after the GO aggregation test's additions. -/
def goAggResult : AnnotationHierarchy String :=
  run_observations goDb goObservations (initHierarchy goSampleSet)

/-- Modelled from the spec: the fragment of the enzyme-classification database
(`EnzymeDb.py`, absent from the source tree) used by the tests: the tree of
4-level dot-separated codes with wildcard levels, restricted to the codes the
tests touch. -/
def ecDb : AnnotationDb String :=
  { get_ancestors := fun id =>
      if id = "1.1.-.-" then ["1.-.-.-"]
      else if id = "1.1.4.-" then ["1.1.-.-", "1.-.-.-"]
      else if id = "1.1.4.1" then ["1.1.4.-", "1.1.-.-", "1.-.-.-"]
      else if id = "1.1.4.2" then ["1.1.4.-", "1.1.-.-", "1.-.-.-"]
      else if id = "6.5.-.-" then ["6.-.-.-"]
      else [],
    get_children := fun id =>
      if id = "1.-.-.-" then ["1.1.-.-"]
      else if id = "1.1.-.-" then ["1.1.4.-"]
      else if id = "1.1.4.-" then ["1.1.4.1", "1.1.4.2"]
      else if id = "6.-.-.-" then ["6.5.-.-"]
      else [] }

/-- The caller-supplied enzyme-code sample set of the tests. -/
def ecSampleSet : List String :=
  ["1.1.4.-", "1.1.4.1", "1.1.4.2", "6.5.-.-", "6.-.-.-"]

/-- The ten unit-intensity observations of the export test. -/
def ecObservations : List (String × ℚ) :=
  [("1.1.4.-", 1), ("1.1.4.1", 1), ("1.1.4.2", 1), ("1.1.4.-", 1), ("1.1.4.1", 1),
   ("1.1.4.2", 1), ("6.5.-.-", 1), ("6.5.-.-", 1), ("6.-.-.-", 1), ("6.-.-.-", 1)]

/-- The hierarchy state of the export test: ten unit observations added and
child coverage computed. -/
def ecExportResult : AnnotationHierarchy String :=
  define_sample_children ecDb
    (run_observations ecDb ecObservations (initHierarchy ecSampleSet))

/-- The seven rows the export test expects, in index-sorted order. -/
def ecExpectedRows : List (DfRow String) :=
  [⟨"1.-.-.-", 6, 6, 1⟩, ⟨"1.1.-.-", 6, 6, 1⟩, ⟨"1.1.4.-", 6, 6, 2⟩,
   ⟨"1.1.4.1", 2, 2, 0⟩, ⟨"1.1.4.2", 2, 2, 0⟩, ⟨"6.-.-.-", 4, 4, 1⟩,
   ⟨"6.5.-.-", 2, 2, 0⟩]

/-- The hierarchy state of the enzyme child-coverage test: one observation of
code 1.1.4.- with intensity 100, then the coverage computation. -/
def ecUpdateResult : AnnotationHierarchy String :=
  define_sample_children ecDb (add_node ecDb (initHierarchy ecSampleSet) "1.1.4.-" 100)

/-- The observations of the NCBI aggregation test: 500, 200, 300 added to
family, genus and species. -/
def ncbiObservations : List (Nat × ℚ) := [(9604, 500), (9605, 200), (9606, 300)]

/-- Number of occurrences of `a` in `l`. -/
def occurrences {Id : Type} [DecidableEq Id] (a : Id) (l : List Id) : Nat :=
  l.countP (fun x => decide (x = a))

/-- A checked provider that can resolve nothing, for exercising the
lookup-failure path. -/
def unknownDb : CheckedDb Nat := { known := fun _ => false, db := ncbiDb }

/-- Embedding of `function_taxonomy_analysis` from
`src/metaquant/analysis/function_taxonomy_interaction.py`.  The external
collaborators (`fa.clean_function_df`, `fa.slim_down_df`, the deduplication and
everything from the rank lookup onwards) are abstract parameters; a raised
Python exception is an `Except.error`.  The source's ontology test evaluates
`ValueError(...)` as a bare expression statement, which constructs the
exception object and discards it without raising, so it is embedded as a pure
let-binding whose value is never used. -/
def function_taxonomy_analysis {Df GoDb Out : Type}
    (clean_function_df : Df → String → GoDb × Df)
    (slim_down_df : GoDb → Df → Df)
    (drop_dup_peptide_func : Df → Df)
    (rank_and_group : GoDb → Df → Out)
    (df : Df) (ontology : String) (slim_down : Bool) : Except String Out :=
  let _constructed_but_unraised : Option String :=
    if ontology = "go" then none
    else some "ontology must be go for function-taxonomy analysis"
  let cleaned := clean_function_df df ontology
  let norm_df := if slim_down then slim_down_df cleaned.1 cleaned.2 else cleaned.2
  let dedup_df := drop_dup_peptide_func norm_df
  Except.ok (rank_and_group cleaned.1 dedup_df)

/-- One row of the normalized dataframe reaching the deduplication step of
`function_taxonomy_analysis`: a peptide, one functional term, and its
intensity data. -/
structure PeptideRow where
  peptide : String
  func_term : String
  intensity : ℚ
deriving DecidableEq

/-- The deduplication key used by the source:
`subset=[pep_colname, func_colname]`. -/
def rowKey (r : PeptideRow) : String × String := (r.peptide, r.func_term)

/-- Embedding of pandas `drop_duplicates(subset=[pep, func], keep="first")`:
a row survives iff no earlier row (nor anything in `seen`) has its key. -/
def drop_duplicates_first (seen : List (String × String)) :
    List PeptideRow → List PeptideRow
  | [] => []
  | r :: rest =>
    if rowKey r ∈ seen then drop_duplicates_first seen rest
    else r :: drop_duplicates_first (rowKey r :: seen) rest

/-- The deduplication step of `function_taxonomy_analysis` on the whole
dataframe. -/
def drop_duplicates (rows : List PeptideRow) : List PeptideRow :=
  drop_duplicates_first [] rows

/-- A small dataframe with a duplicated peptide-term pair. -/
def sampleRows : List PeptideRow :=
  [⟨"pepA", "GO:0008150", 3⟩, ⟨"pepA", "GO:0008150", 5⟩, ⟨"pepB", "GO:0008150", 2⟩]

theorem mq_find_map_keyfix {Id : Type} [DecidableEq Id]
    (f : Id × AnnotationNode → Id × AnnotationNode) (hf : ∀ p, (f p).1 = p.1) (a : Id)
    (ns : List (Id × AnnotationNode)) :
    (ns.map f).find? (fun p => decide (p.1 = a)) =
      (ns.find? (fun p => decide (p.1 = a))).map f := by
  induction ns with
  | nil => rfl
  | cons p t ih =>
    by_cases h : p.1 = a
    · rw [List.map_cons, List.find?_cons_of_pos, List.find?_cons_of_pos] <;>
        simp [hf, h]
    · rw [List.map_cons, List.find?_cons_of_neg, List.find?_cons_of_neg, ih] <;>
        simp [hf, h]

theorem nodeIntensity_upsert {Id : Type} [DecidableEq Id] (ns : List (Id × AnnotationNode))
    (id a : Id) (amount : ℚ) :
    nodeIntensity (upsert ns id amount) a =
      nodeIntensity ns a + (if a = id then amount else 0) := by
  by_cases hany : ns.any (fun p => decide (p.1 = id)) = true
  · unfold upsert
    rw [if_pos hany]
    unfold nodeIntensity findNode
    rw [mq_find_map_keyfix _ (fun p => by by_cases h : p.1 = id <;> simp [h]) a ns]
    cases hfind : ns.find? (fun p => decide (p.1 = a)) with
    | none =>
      by_cases hai : a = id
      · exfalso
        subst hai
        rw [List.any_eq_true] at hany
        obtain ⟨x, hx, hpx⟩ := hany
        exact (List.find?_eq_none.mp hfind x hx) hpx
      · simp [hai]
    | some q =>
      have hq : q.1 = a := by simpa using List.find?_some hfind
      by_cases hai : a = id
      · subst hai
        simp [Option.map, hq, AnnotationNode.add_intensity]
      · have hqne : ¬ q.1 = id := by rw [hq]; exact hai
        simp [Option.map, hqne, hai]
  · unfold upsert
    rw [if_neg hany]
    unfold nodeIntensity findNode
    rw [List.find?_append]
    have hnone : ns.find? (fun p => decide (p.1 = id)) = none := by
      rw [List.find?_eq_none]
      intro x hx hpx
      exact hany (List.any_eq_true.mpr ⟨x, hx, hpx⟩)
    by_cases hai : a = id
    · subst hai
      rw [hnone]
      simp
    · have : ([(id, { intensity := amount, npeptide := 1, n_sample_children := 0 })] :
          List (Id × AnnotationNode)).find? (fun p => decide (p.1 = a)) = none := by
        simp [Ne.symm hai]
      rw [this, Option.or_none]
      simp [hai]

theorem occurrences_cons {Id : Type} [DecidableEq Id] (a x : Id) (t : List Id) :
    occurrences a (x :: t) = occurrences a t + (if x = a then 1 else 0) := by
  simp [occurrences, List.countP_cons]

theorem occurrences_nodup {Id : Type} [DecidableEq Id] (a : Id) (l : List Id)
    (hl : l.Nodup) : occurrences a l = if a ∈ l then 1 else 0 := by
  induction l with
  | nil => simp [occurrences]
  | cons x t ih =>
    obtain ⟨hx, ht⟩ := List.nodup_cons.mp hl
    rw [occurrences_cons]
    by_cases hxa : x = a
    · subst hxa
      have hnot : occurrences x t = 0 := by
        rw [occurrences, List.countP_eq_zero]
        intro b hb
        simp only [decide_eq_true_eq]
        intro hbx
        exact hx (hbx ▸ hb)
      simp [hnot]
    · have hax : ¬ a = x := fun h => hxa h.symm
      rw [ih ht]
      simp [hxa, hax, List.mem_cons]

theorem foldl_upsert_intensity {Id : Type} [DecidableEq Id] (amount : ℚ) (a : Id)
    (l : List Id) :
    ∀ (ns : List (Id × AnnotationNode)),
      nodeIntensity (l.foldl (fun ns x => upsert ns x amount) ns) a =
        nodeIntensity ns a + (occurrences a l : ℚ) * amount := by
  induction l with
  | nil => intro ns; simp [occurrences]
  | cons x t ih =>
    intro ns
    rw [List.foldl_cons, ih (upsert ns x amount), nodeIntensity_upsert, occurrences_cons]
    by_cases hx : x = a
    · subst hx
      simp only [if_pos rfl]
      push_cast
      ring
    · have hax : ¬ a = x := fun h => hx h.symm
      simp [hx, hax]

theorem add_node_intensity {Id : Type} [DecidableEq Id] (db : AnnotationDb Id)
    (h : AnnotationHierarchy Id) (id : Id) (amount : ℚ) (a : Id) :
    nodeIntensity (add_node db h id amount).nodes a =
      nodeIntensity h.nodes a + (if a = id then amount else 0) +
        (occurrences a (db.get_ancestors id) : ℚ) * amount := by
  show nodeIntensity
      ((db.get_ancestors id).foldl (fun ns x => upsert ns x amount)
        (upsert h.nodes id amount)) a = _
  rw [foldl_upsert_intensity, nodeIntensity_upsert]

theorem add_node_intensity_nodup {Id : Type} [DecidableEq Id] (db : AnnotationDb Id)
    (h : AnnotationHierarchy Id) (id : Id) (amount : ℚ) (a : Id)
    (hnd : (db.get_ancestors id).Nodup) (hid : id ∉ db.get_ancestors id) :
    nodeIntensity (add_node db h id amount).nodes a =
      nodeIntensity h.nodes a +
        (if a = id ∨ a ∈ db.get_ancestors id then amount else 0) := by
  rw [add_node_intensity, occurrences_nodup a _ hnd]
  by_cases h1 : a = id
  · subst h1
    simp [hid]
  · by_cases h2 : a ∈ db.get_ancestors id <;> simp [h1, h2]

theorem run_observations_intensity {Id : Type} [DecidableEq Id] (db : AnnotationDb Id)
    (a : Id) (obs : List (Id × ℚ))
    (hdb : ∀ p ∈ obs, (db.get_ancestors p.1).Nodup ∧ p.1 ∉ db.get_ancestors p.1) :
    ∀ h : AnnotationHierarchy Id,
      nodeIntensity (run_observations db obs h).nodes a =
        nodeIntensity h.nodes a +
          ((obs.filter (fun p => decide (a = p.1 ∨ a ∈ db.get_ancestors p.1))).map
            Prod.snd).sum := by
  induction obs with
  | nil => intro h; simp [run_observations]
  | cons p t ih =>
    intro h
    have hp := hdb p (List.mem_cons_self p t)
    have ht : ∀ q ∈ t, (db.get_ancestors q.1).Nodup ∧ q.1 ∉ db.get_ancestors q.1 :=
      fun q hq => hdb q (List.mem_cons_of_mem p hq)
    show nodeIntensity (run_observations db t (add_node db h p.1 p.2)).nodes a = _
    rw [ih ht (add_node db h p.1 p.2),
        add_node_intensity_nodup db h p.1 p.2 a hp.1 hp.2]
    by_cases hc : a = p.1 ∨ a ∈ db.get_ancestors p.1
    · simp only [List.filter_cons, hc]
      simp [hc]
      ring
    · simp only [List.filter_cons, hc]
      simp [hc]

theorem findNode_map_update {Id : Type} [DecidableEq Id]
    (g : Id → AnnotationNode → AnnotationNode) (id : Id)
    (ns : List (Id × AnnotationNode)) :
    findNode (ns.map (fun p => (p.1, g p.1 p.2))) id = (findNode ns id).map (g id) := by
  induction ns with
  | nil => rfl
  | cons p t ih =>
    by_cases hp : p.1 = id
    · unfold findNode
      rw [List.map_cons, List.find?_cons_of_pos _ (by simpa using hp),
          List.find?_cons_of_pos _ (by simpa using hp)]
      simp [hp]
    · unfold findNode at ih ⊢
      rw [List.map_cons, List.find?_cons_of_neg _ (by simpa using hp),
          List.find?_cons_of_neg _ (by simpa using hp)]
      exact ih

theorem dsc_nsc {Id : Type} [DecidableEq Id] (db : AnnotationDb Id)
    (h : AnnotationHierarchy Id) (id : Id) (node : AnnotationNode)
    (hfind : findNode (define_sample_children db h).nodes id = some node) :
    node.n_sample_children =
      (db.get_children id).countP (fun c => decide (c ∈ h.expanded_sample_set)) := by
  have hmap := findNode_map_update
    (fun i n => { n with n_sample_children := (db.get_children i).countP (fun c => decide (c ∈ h.expanded_sample_set)) })
    id h.nodes
  have h2 := hmap.symm.trans hfind
  cases hn : findNode h.nodes id with
  | none => rw [hn] at h2; simp at h2
  | some n0 =>
    rw [hn] at h2
    have h3 := Option.some.inj h2
    rw [← h3]

theorem ddf_not_seen (r : PeptideRow) :
    ∀ (l : List PeptideRow) (seen : List (String × String)),
      r ∈ drop_duplicates_first seen l → rowKey r ∉ seen
  | [], seen => by simp [drop_duplicates_first]
  | x :: rest, seen => by
    simp only [drop_duplicates_first]
    by_cases hx : rowKey x ∈ seen
    · rw [if_pos hx]
      exact ddf_not_seen r rest seen
    · rw [if_neg hx]
      intro hr
      rcases List.mem_cons.mp hr with h | h
      · subst h; exact hx
      · intro hk
        exact ddf_not_seen r rest (rowKey x :: seen) h (List.mem_cons_of_mem _ hk)

theorem ddf_countP_seen (k : String × String) :
    ∀ (l : List PeptideRow) (seen : List (String × String)), k ∈ seen →
      (drop_duplicates_first seen l).countP (fun r => decide (rowKey r = k)) = 0
  | [], seen => by simp [drop_duplicates_first]
  | x :: rest, seen => by
    intro hk
    simp only [drop_duplicates_first]
    by_cases hx : rowKey x ∈ seen
    · rw [if_pos hx]
      exact ddf_countP_seen k rest seen hk
    · rw [if_neg hx]
      rw [List.countP_cons]
      have hne : ¬ rowKey x = k := fun h => hx (h ▸ hk)
      simp only [hne, decide_eq_true_eq, if_neg, add_zero]
      have := ddf_countP_seen k rest (rowKey x :: seen) (List.mem_cons_of_mem _ hk)
      simpa [hne] using this

theorem ddf_countP_le_one (k : String × String) :
    ∀ (l : List PeptideRow) (seen : List (String × String)),
      (drop_duplicates_first seen l).countP (fun r => decide (rowKey r = k)) ≤ 1
  | [], seen => by simp [drop_duplicates_first]
  | x :: rest, seen => by
    simp only [drop_duplicates_first]
    by_cases hx : rowKey x ∈ seen
    · rw [if_pos hx]
      exact ddf_countP_le_one k rest seen
    · rw [if_neg hx]
      rw [List.countP_cons]
      by_cases hxk : rowKey x = k
    
      · have hk : k ∈ rowKey x :: seen := by rw [← hxk]; exact List.mem_cons_self _ _
        have h0 := ddf_countP_seen k rest (rowKey x :: seen) hk
        rw [h0, hxk]
        simp
      · simp only [hxk, decide_eq_true_eq, if_neg, add_zero]
        have := ddf_countP_le_one k rest (rowKey x :: seen)
        simpa [hxk] using this

theorem ddf_first (r : PeptideRow) :
    ∀ (l : List PeptideRow) (seen : List (String × String)),
      r ∈ drop_duplicates_first seen l →
      l.find? (fun r2 => decide (rowKey r2 = rowKey r)) = some r
  | [], seen => by simp [drop_duplicates_first]
  | x :: rest, seen => by
    intro hr
    simp only [drop_duplicates_first] at hr
    by_cases hx : rowKey x ∈ seen
    · rw [if_pos hx] at hr
      have hnotseen := ddf_not_seen r rest seen hr
      have hne : ¬ rowKey x = rowKey r := fun h => hnotseen (h ▸ hx)
      rw [List.find?_cons_of_neg _ (by simpa using hne)]
      exact ddf_first r rest seen hr
    · rw [if_neg hx] at hr
      rcases List.mem_cons.mp hr with h | h
      · subst h
        rw [List.find?_cons_of_pos _ (by simp)]
      · have hnotseen := ddf_not_seen r rest (rowKey x :: seen) h
        have hne : ¬ rowKey x = rowKey r := by
          intro he
          exact hnotseen (he ▸ List.mem_cons_self (rowKey x) seen)
        rw [List.find?_cons_of_neg _ (by simpa using hne)]
        exact ddf_first r rest (rowKey x :: seen) h

/-- C1: a single add-observation call for `id` with `amount` increases the
intensity of `id` and of every ancestor of `id` by exactly `amount` — each
ancestor once, never a multiple, even in a DAG with converging parent paths —
and of no other node; in the literal GO scenario (leaf additions
0, 0, 0, 100, 50, 200, 300 to the seven-node chain where germ cell
proliferation has two parents), the shared-ancestor node reproductive process
(GO:0022414) accumulates exactly 650. -/
theorem C1_single_call_increment {Id : Type} [DecidableEq Id] (db : AnnotationDb Id)
    (h : AnnotationHierarchy Id) (id : Id) (amount : ℚ) (a : Id)
    (hnd : (db.get_ancestors id).Nodup) (hid : id ∉ db.get_ancestors id) :
    nodeIntensity (add_node db h id amount).nodes a =
      nodeIntensity h.nodes a +
        (if a = id ∨ a ∈ db.get_ancestors id then amount else 0) ∧
    nodeIntensity goAggResult.nodes "GO:0022414" = 650 :=
  ⟨add_node_intensity_nodup db h id amount a hnd hid, by with_unfolding_all decide⟩

/-- Witness instantiating C1 at a concrete GO input. -/
theorem C1_single_call_increment_witness :
    nodeIntensity (add_node goDb (initHierarchy goSampleSet) "GO:0036093" 100).nodes
        "GO:0022414" =
      nodeIntensity (initHierarchy goSampleSet : AnnotationHierarchy String).nodes
          "GO:0022414" +
        (if ("GO:0022414" : String) = "GO:0036093" ∨
            "GO:0022414" ∈ goDb.get_ancestors "GO:0036093" then 100 else 0) :=
  (C1_single_call_increment goDb (initHierarchy goSampleSet) "GO:0036093" 100 "GO:0022414"
    (by decide) (by decide)).1

/-- C2: after any finite sequence of add-observation calls from a fresh
hierarchy, the intensity of a node equals the sum of the amounts of the calls
whose target is that node or has it as an ancestor, independently of call
order; literally, adding 500, 200, 300 to taxa 9604, 9605, 9606 of the
species-genus-family chain yields 1000 at the family taxon 9604. -/
theorem C2_additive_order_independent {Id : Type} [DecidableEq Id]
    (db : AnnotationDb Id) (sample_set : List Id) (obs obs2 : List (Id × ℚ)) (a : Id)
    (hdb : ∀ p ∈ obs, (db.get_ancestors p.1).Nodup ∧ p.1 ∉ db.get_ancestors p.1)
    (hperm : List.Perm obs obs2) :
    nodeIntensity (run_observations db obs (initHierarchy sample_set)).nodes a =
        ((obs.filter (fun p => decide (a = p.1 ∨ a ∈ db.get_ancestors p.1))).map
          Prod.snd).sum ∧
    nodeIntensity (run_observations db obs2 (initHierarchy sample_set)).nodes a =
      nodeIntensity (run_observations db obs (initHierarchy sample_set)).nodes a ∧
    nodeIntensity
        (run_observations ncbiDb ncbiObservations (initHierarchy ncbiSampleSet)).nodes
        9604 = 1000 := by
  have hdb2 : ∀ p ∈ obs2, (db.get_ancestors p.1).Nodup ∧ p.1 ∉ db.get_ancestors p.1 :=
    fun p hp => hdb p (hperm.mem_iff.mpr hp)
  have h1 := run_observations_intensity db a obs hdb (initHierarchy sample_set)
  have h2 := run_observations_intensity db a obs2 hdb2 (initHierarchy sample_set)
  have hzero :
      nodeIntensity (initHierarchy sample_set : AnnotationHierarchy Id).nodes a = 0 := rfl
  rw [hzero, zero_add] at h1 h2
  refine ⟨h1, ?_, by with_unfolding_all decide⟩
  rw [h1, h2]
  exact (List.Perm.sum_eq (List.Perm.map Prod.snd (hperm.filter _))).symm

/-- Witness instantiating C2 at the concrete NCBI input. -/
theorem C2_additive_order_independent_witness :
    nodeIntensity
        (run_observations ncbiDb ncbiObservations (initHierarchy ncbiSampleSet)).nodes
        9604 =
      ((ncbiObservations.filter
          (fun p => decide ((9604 : Nat) = p.1 ∨ 9604 ∈ ncbiDb.get_ancestors p.1))).map
        Prod.snd).sum :=
  (C2_additive_order_independent ncbiDb ncbiSampleSet ncbiObservations ncbiObservations 9604
    (by decide) (List.Perm.refl _)).1

/-- C3 counterexample: after adding the single observation 1.1.4.1 and running
the child-coverage computation with the enzyme-code sample set of the tests,
node 1.-.-.- records n_sample_children = 1, although the number of its
immediate children that are members of sample_set is 0; so the computed value
is not the count of immediate children lying in sample_set itself. -/
theorem C3_counterexample :
    ¬ nodeSampChildren
        (define_sample_children ecDb
          (add_node ecDb (initHierarchy ecSampleSet) "1.1.4.1" 1)).nodes "1.-.-.-" =
      (ecDb.get_children "1.-.-.-").countP (fun c => decide (c ∈ ecSampleSet)) := by
  with_unfolding_all decide

/-- C3 (amended): after the child-coverage computation, every id with a node
record has n_sample_children equal to the number of its immediate children
(per the capability provider) that are members of the expanded sample set —
the caller-supplied sample set together with every ancestor brought in by
propagation — with grandchildren not counted and intensity values having no
effect on the computed count; in particular, for the enzyme-code sample set of
the tests, node 1.1.4.- gets n_sample_children = 2. -/
theorem C3_child_coverage_amended {Id : Type} [DecidableEq Id] (db : AnnotationDb Id)
    (h : AnnotationHierarchy Id) (id : Id) (node : AnnotationNode)
    (hfind : findNode (define_sample_children db h).nodes id = some node) :
    node.n_sample_children =
      (db.get_children id).countP (fun c => decide (c ∈ h.expanded_sample_set)) ∧
    nodeSampChildren ecUpdateResult.nodes "1.1.4.-" = 2 :=
  ⟨dsc_nsc db h id node hfind, by with_unfolding_all decide⟩

/-- Witness instantiating C3 (amended) at a concrete enzyme-code input. -/
theorem C3_child_coverage_amended_witness :
    (⟨100, 1, 2⟩ : AnnotationNode).n_sample_children =
      (ecDb.get_children "1.1.4.-").countP
        (fun c =>
          decide (c ∈ (add_node ecDb (initHierarchy ecSampleSet)
            "1.1.4.-" 100).expanded_sample_set)) :=
  (C3_child_coverage_amended ecDb (add_node ecDb (initHierarchy ecSampleSet) "1.1.4.-" 100)
    "1.1.4.-" ⟨100, 1, 2⟩ (by with_unfolding_all decide)).1

/-- C4: the export produces exactly one row per node, keyed by annotation id,
carrying the sample group intensity, the peptide/observation count and the
n_sample_children count; for the ten unit-intensity enzyme observations of
the tests, the exported table consists exactly of the seven expected rows. -/
theorem C4_export_table {Id : Type} (h : AnnotationHierarchy Id)
    (p : Id × AnnotationNode) (hp : p ∈ h.nodes) :
    (to_dataframe h).map DfRow.id = h.nodes.map Prod.fst ∧
    (⟨p.1, p.2.intensity, p.2.npeptide, p.2.n_sample_children⟩ : DfRow Id) ∈
      to_dataframe h ∧
    List.Perm (to_dataframe ecExportResult) ecExpectedRows := by
  refine ⟨?_, ?_, by with_unfolding_all decide⟩
  · simp only [to_dataframe, List.map_map]
    rfl
  · exact List.mem_map.mpr ⟨p, hp, rfl⟩

/-- Witness instantiating C4 at a concrete enzyme-code row. -/
theorem C4_export_table_witness :
    (⟨"1.1.4.1", 2, 2, 0⟩ : DfRow String) ∈ to_dataframe ecExportResult :=
  (C4_export_table ecExportResult ("1.1.4.1", ⟨2, 2, 0⟩)
    (by with_unfolding_all decide)).2.1

/-- C5: a node is retained by the informative-node selection iff its
accumulated peptide/observation count is at least min_peptides and it either
has zero sample children or at least min_children_non_leaf of them. -/
theorem C5_informative_selection {Id : Type} (h : AnnotationHierarchy Id)
    (min_peptides min_children_non_leaf : Nat) (p : Id × AnnotationNode) :
    p ∈ get_informative_nodes h min_peptides min_children_non_leaf ↔
      p ∈ h.nodes ∧ min_peptides ≤ p.2.npeptide ∧
        (p.2.n_sample_children = 0 ∨
          min_children_non_leaf ≤ p.2.n_sample_children) := by
  simp [get_informative_nodes, List.mem_filter, and_assoc]

/-- C6: raising either threshold never grows the informative set: under larger
thresholds every selected node is also selected under the smaller thresholds,
and the selection size does not increase. -/
theorem C6_informative_monotone {Id : Type} (h : AnnotationHierarchy Id)
    (mp mp2 mc mc2 : Nat) (hmp : mp ≤ mp2) (hmc : mc ≤ mc2) :
    (∀ p, p ∈ get_informative_nodes h mp2 mc2 → p ∈ get_informative_nodes h mp mc) ∧
    (get_informative_nodes h mp2 mc2).length ≤
      (get_informative_nodes h mp mc).length := by
  have himp : ∀ p : Id × AnnotationNode,
      (decide (mp2 ≤ p.2.npeptide) &&
        (decide (p.2.n_sample_children = 0) ||
          decide (mc2 ≤ p.2.n_sample_children))) = true →
      (decide (mp ≤ p.2.npeptide) &&
        (decide (p.2.n_sample_children = 0) ||
          decide (mc ≤ p.2.n_sample_children))) = true := by
    intro p hp
    simp only [Bool.and_eq_true, Bool.or_eq_true, decide_eq_true_eq] at hp ⊢
    exact ⟨le_trans hmp hp.1, hp.2.elim Or.inl (fun h2 => Or.inr (le_trans hmc h2))⟩
  have hsl := List.monotone_filter_right h.nodes himp
  exact ⟨fun p hp => hsl.subset hp, hsl.length_le⟩

/-- Witness instantiating C6 on the concrete enzyme-code hierarchy. -/
theorem C6_informative_monotone_witness :
    (get_informative_nodes ecExportResult 2 2).length ≤
      (get_informative_nodes ecExportResult 0 0).length :=
  (C6_informative_monotone ecExportResult 0 2 0 2 (by decide) (by decide)).2

/-- C7: the child-coverage computation is idempotent: with no additions in
between (node set and expanded sample set unchanged), running it twice yields
exactly the same hierarchy state — hence the same n_sample_children on every
node — as running it once. -/
theorem C7_coverage_idempotent {Id : Type} [DecidableEq Id] (db : AnnotationDb Id)
    (h : AnnotationHierarchy Id) :
    define_sample_children db (define_sample_children db h) =
      define_sample_children db h := by
  unfold define_sample_children
  simp only [List.map_map]
  rfl

/-- C8: for an identifier the capability provider cannot resolve, the
ancestor-closure query returns an explicit lookup-failure signal instead of an
empty or partial ancestor set, and the add-observation operation propagates
exactly that failure to the caller. -/
theorem C8_unresolvable_propagates {Id : Type} [DecidableEq Id] (cdb : CheckedDb Id)
    (id : Id) (hu : cdb.known id = false) (h : AnnotationHierarchy Id) (amount : ℚ) :
    cdb.ancestors_checked id = Except.error "unresolvable annotation id" ∧
    add_node_checked cdb h id amount =
      Except.error "unresolvable annotation id" := by
  have h1 : cdb.ancestors_checked id = Except.error "unresolvable annotation id" := by
    simp [CheckedDb.ancestors_checked, hu]
  refine ⟨h1, ?_⟩
  unfold add_node_checked
  rw [h1]

/-- Witness instantiating C8 on a provider that resolves nothing. -/
theorem C8_unresolvable_propagates_witness :
    add_node_checked unknownDb (initHierarchy ncbiSampleSet) 9999 5 =
      Except.error "unresolvable annotation id" :=
  (C8_unresolvable_propagates unknownDb 9999 rfl (initHierarchy ncbiSampleSet) 5).2

/-- C9: for every input, `function_taxonomy_analysis` never raises on a
non-"go" ontology: the source evaluates `ValueError(...)` without a raise
statement, so the call proceeds into the analysis pipeline and returns its
result for every ontology value. -/
theorem C9_ontology_check_never_raises {Df GoDb Out : Type}
    (clean_function_df : Df → String → GoDb × Df) (slim_down_df : GoDb → Df → Df)
    (drop_dup_peptide_func : Df → Df) (rank_and_group : GoDb → Df → Out)
    (df : Df) (ontology : String) (slim_down : Bool) (_hne : ontology ≠ "go") :
    function_taxonomy_analysis clean_function_df slim_down_df drop_dup_peptide_func
        rank_and_group df ontology slim_down =
      Except.ok (rank_and_group (clean_function_df df ontology).1
        (drop_dup_peptide_func
          (if slim_down then
            slim_down_df (clean_function_df df ontology).1 (clean_function_df df ontology).2
          else (clean_function_df df ontology).2))) := rfl

/-- Witness instantiating C9 with the ontology "ec". -/
theorem C9_ontology_check_never_raises_witness :
    function_taxonomy_analysis (fun (d : Nat) (_ : String) => ((), d)) (fun _ d => d)
        (fun d => d) (fun _ d => d) 7 "ec" false = Except.ok 7 :=
  (C9_ontology_check_never_raises (fun (d : Nat) (_ : String) => ((), d)) (fun _ d => d)
    (fun d => d) (fun _ d => d) 7 "ec" false (by decide)).trans rfl

/-- C10: after the deduplication step, at most one row remains for every
(peptide, functional-term) pair, and each retained row is the first occurrence
of its pair in the input's row order. -/
theorem C10_drop_duplicates_first_occurrence (rows : List PeptideRow) :
    (∀ k : String × String,
        (drop_duplicates rows).countP (fun r => decide (rowKey r = k)) ≤ 1) ∧
    (∀ r ∈ drop_duplicates rows,
        rows.find? (fun r2 => decide (rowKey r2 = rowKey r)) = some r) :=
  ⟨fun k => ddf_countP_le_one k rows [], fun r hr => ddf_first r rows [] hr⟩

/-- Witness instantiating C10 on a dataframe with a duplicated pair. -/
theorem C10_drop_duplicates_first_occurrence_witness :
    sampleRows.find?
        (fun r2 => decide (rowKey r2 = rowKey (⟨"pepA", "GO:0008150", 3⟩ : PeptideRow))) =
      some ⟨"pepA", "GO:0008150", 3⟩ :=
  (C10_drop_duplicates_first_occurrence sampleRows).2 ⟨"pepA", "GO:0008150", 3⟩
    (by with_unfolding_all decide)
